import Mathlib

/-!
Shallow embedding of `macos_gemini_overlay/app.py`.

The application is a single delegate class (`AppDelegate`) plus two small
view classes (`AppWindow`, `DragArea`).  Its handlers are embedded here as
pure functions:

* strings are `List Char`, numbers parsed by Python `float` are `ℚ`;
* side-effecting AppKit / Quartz calls are recorded as values of an
  `Effect` trace type, and their state semantics are given by a single
  interpreter `applyEffect` over an explicit `AppState`;
* the handlers of `app.py` are functions producing effect traces (and,
  for the script-message handler, a `HandlerResult`).
-/

namespace GeminiOverlay

/-- Python `s.startswith(p)`, on character lists: `p` is the pattern. -/
def startsWith : List Char → List Char → Bool
  | [], _ => true
  | _ :: _, [] => false
  | p :: ps, c :: cs => p == c && startsWith ps cs

/-- Python `c in s` for a single character `c`. -/
def containsChar (c : Char) : List Char → Bool
  | [] => false
  | a :: rest => a == c || containsChar c rest

/-- Python `s.index(c)`: index of the first occurrence of `c`
(meaningful only when `c` occurs, as guaranteed by the guard in the
color handler). -/
def pyIndex (c : Char) : List Char → ℕ
  | [] => 0
  | a :: rest => if a == c then 0 else pyIndex c rest + 1

/-- Python slicing `s[start:stop]` for nonnegative bounds. -/
def pySlice (s : List Char) (start stop : ℕ) : List Char :=
  (s.take stop).drop start

/-- Python `s.strip()` restricted to the space character (the only
whitespace occurring inside CSS `rgb(...)` strings). -/
def stripSpaces (s : List Char) : List Char :=
  ((s.dropWhile (fun c => c == ' ')).reverse.dropWhile (fun c => c == ' ')).reverse

/-- Numeric value of a digit character. -/
def digitVal (c : Char) : ℕ := c.toNat - '0'.toNat

/-- Value of a digit string read in base 10. -/
def digitsToNat (l : List Char) : ℕ :=
  l.foldl (fun acc c => 10 * acc + digitVal c) 0

/-- Unsigned decimal literal: digits with an optional single point,
as accepted by Python `float` (scientific notation, `inf`/`nan` and
digit-group underscores never occur in CSS color components and are not
modelled). -/
def parseDecimal (s : List Char) : Option ℚ :=
  let ip := s.takeWhile Char.isDigit
  match s.dropWhile Char.isDigit with
  | [] => if ip.isEmpty then none else some (digitsToNat ip : ℚ)
  | '.' :: fp =>
      if fp.all Char.isDigit && !(ip.isEmpty && fp.isEmpty) then
        some ((digitsToNat ip : ℚ) + (digitsToNat fp : ℚ) / (10 : ℚ) ^ fp.length)
      else none
  | _ => none

/-- Python `float(s)` on decimal literals: surrounding spaces stripped,
optional sign, `none` models the `ValueError` raised on anything else. -/
def pyFloat? (s : List Char) : Option ℚ :=
  match stripSpaces s with
  | '-' :: t => (parseDecimal t).map (fun q => -q)
  | '+' :: t => parseDecimal t
  | t => parseDecimal t

/-- Worker for `splitOnComma`; `acc` holds the current piece reversed. -/
def splitAux : List Char → List Char → List (List Char)
  | acc, [] => [acc.reverse]
  | acc, c :: rest =>
      if c == ',' then acc.reverse :: splitAux [] rest
      else splitAux (c :: acc) rest

/-- Python `s.split(",")`. -/
def splitOnComma (s : List Char) : List (List Char) :=
  splitAux [] s

/-- Inverse image of `splitOnComma`: joins pieces with a comma
(used to describe strings of the form `rgb(r, g, b)`). -/
def joinComma : List (List Char) → List Char
  | [] => []
  | [c] => c
  | c :: rest => c ++ ',' :: joinComma rest

/-- The list comprehension `[float(val) for val in parts]`: `none`
models the `ValueError` escaping from the comprehension. -/
def parseFloats : List (List Char) → Option (List ℚ)
  | [] => some []
  | v :: rest =>
      match pyFloat? v with
      | none => none
      | some x => (parseFloats rest).map (fun qs => x :: qs)

/-- The guard of the color handler, line 560 of `app.py`:
`bg_color_str.startswith("rgb") and ("(" in bg_color_str) and (")" in bg_color_str)`.
This is also the shape test the spec describes: malformed means a wrong
prefix or missing parentheses. -/
def rgbGuard (s : List Char) : Bool :=
  startsWith ['r', 'g', 'b'] s && containsChar '(' s && containsChar ')' s

/-- Line 561: the slice `bg_color_str[bg_color_str.index("(")+1 : bg_color_str.index(")")]`. -/
def parenContents (s : List Char) : List Char :=
  pySlice s (pyIndex '(' s + 1) (pyIndex ')' s)

/-- Outcome of one delivery of a `backgroundColorHandler` message.
`noChange` is the silently ignored case, `setColor` carries the
calibrated RGBA components handed to `NSColor`, and `pyError` marks an
uncaught Python exception (`ValueError` from `float` or from unpacking
fewer than three values). -/
inductive HandlerResult where
  | noChange : HandlerResult
  | setColor (r g b a : ℚ) : HandlerResult
  | pyError : HandlerResult
deriving DecidableEq

/-- Lines 560-564 of `app.py`: parse the CSS color string and build the
drag-area background color.  The components are each divided by 255 and
the alpha argument of `colorWithCalibratedRed_green_blue_alpha_` is the
constant `1.0`; `rgb_values[:3]` drops any fourth component. -/
def handleBackgroundColor (s : List Char) : HandlerResult :=
  if rgbGuard s then
    match parseFloats (splitOnComma (parenContents s)) with
    | none => .pyError
    | some vals =>
        match vals.take 3 with
        | [r, g, b] => .setColor (r / 255) (g / 255) (b / 255) 1
        | _ => .pyError
  else .noChange

/-- A string of the form `rgb(c1,c2,...,cn)`: the literal prefix
`rgb(`, the components joined by commas, and the closing parenthesis. -/
def rgbString (comps : List (List Char)) : List Char :=
  'r' :: 'g' :: 'b' :: '(' :: (joinComma comps ++ [')'])

/-- The scripts the delegate injects into the webview (the exact
JavaScript texts are fixed string literals in `app.py`; they are
abstracted to their purpose). -/
inductive Script where
  | newChat : Script
  | toggleSidebar : Script
  | savedSettings : Script
  | focusPrompt : Script
deriving DecidableEq

/-- Side-effecting AppKit / Quartz / WebKit calls made by the delegate,
recorded as trace elements. -/
inductive Effect where
  | log (msg : String) : Effect
  | makeKeyAndOrderFront : Effect
  | activateApp : Effect
  | hideApp : Effect
  | terminateApp : Effect
  | evalJS (s : Script) : Effect
  | scheduleTimer (interval : ℚ) (repeats : Bool) (selector : String) : Effect
  | performWindowDragWith (eventId : ℕ) : Effect
  | selectAll : Effect
  | copyText : Effect
  | cutText : Effect
  | pasteText : Effect
  | callInstallStartup (ok : Bool) : Effect
  | callUninstallStartup (ok : Bool) : Effect
  | addRunLoopSource : Effect
  | enableEventTap : Effect
deriving DecidableEq

/-- A window frame rectangle (origin and size, in points). -/
structure Rect where
  x : ℚ
  y : ℚ
  w : ℚ
  h : ℚ
deriving DecidableEq

/-- The observable state of the running shell: the overlay window, the
persisted configuration, and process-level flags. -/
structure AppState where
  windowExists : Bool
  frame : Rect
  trigger : ℕ
  windowVisible : Bool
  windowIsKey : Bool
  windowIsFront : Bool
  appActive : Bool
  appHidden : Bool
  terminated : Bool
  loginItemRegistered : Bool
  dragColor : Option (ℚ × ℚ × ℚ × ℚ)
deriving DecidableEq

/-- State semantics of each recorded call.
`makeKeyAndOrderFront_` makes the window key, frontmost and visible;
`activateIgnoringOtherApps_` activates (and unhides) the application;
`NSApp.hide_` hides the application: all its windows are ordered out
and it is deactivated — the window object and its autosaved frame are
untouched; `terminate_` ends the process; the startup-manager calls
update the login-item registration exactly when they succeed; script
evaluation, logging, timers and the OS-run drag loop do not change the
modelled state. -/
def applyEffect (s : AppState) : Effect → AppState
  | .log _ => s
  | .makeKeyAndOrderFront =>
      { s with windowIsKey := true, windowIsFront := true, windowVisible := true }
  | .activateApp => { s with appActive := true, appHidden := false }
  | .hideApp =>
      { s with appHidden := true, appActive := false, windowIsKey := false,
               windowIsFront := false, windowVisible := false }
  | .terminateApp => { s with terminated := true }
  | .evalJS _ => s
  | .scheduleTimer _ _ _ => s
  | .performWindowDragWith _ => s
  | .selectAll => s
  | .copyText => s
  | .cutText => s
  | .pasteText => s
  | .callInstallStartup ok => if ok then { s with loginItemRegistered := true } else s
  | .callUninstallStartup ok => if ok then { s with loginItemRegistered := false } else s
  | .addRunLoopSource => s
  | .enableEventTap => s

/-- Runs a trace of calls left to right. -/
def applyEffects (es : List Effect) (s : AppState) : AppState :=
  es.foldl applyEffect s

/-- Applying a `HandlerResult` to the state: `setColor` stores the new
drag-area background color; the ignored case and the exception case
leave the state as it was. -/
def applyHandlerResult : HandlerResult → AppState → AppState
  | .noChange, s => s
  | .setColor r g b a, s => { s with dragColor := some (r, g, b, a) }
  | .pyError, s => s

/-- Lines 556-567, `userContentController_didReceiveScriptMessage_`:
dispatch on the message name; `backgroundColorHandler` runs the color
parser, `debugLogger` prints the body, anything else is ignored. -/
def userContentController_didReceiveScriptMessage_
    (name : String) (body : List Char) : HandlerResult × List Effect :=
  if name = "backgroundColorHandler" then (handleBackgroundColor body, [])
  else if name = "debugLogger" then (.noChange, [.log (String.mk body)])
  else (.noChange, [])

/-- Lines 600-624, `_focus_prompt_area`: a debug print followed by a
fire-and-forget evaluation of the focus script. -/
def _focus_prompt_area : List Effect :=
  [.log "DEBUG: _focus_prompt_area called", .evalJS .focusPrompt]

/-- Lines 403-408, `showWindow_`: debug print, make the window key and
order it front, activate the app ignoring other apps, then focus the
prompt area. -/
def showWindow_ : List Effect :=
  [.log "DEBUG: showWindow_ called", .makeKeyAndOrderFront, .activateApp]
    ++ _focus_prompt_area

/-- Lines 410-412, `hideWindow_`: the single call `NSApp.hide_(None)`. -/
def hideWindow_ : List Effect :=
  [.hideApp]

/-- Lines 587-593, `webView_didFinishNavigation_`: debug print, then a
non-repeating 0.1 second timer targeting `_focusPromptTimerFired:`. -/
def webView_didFinishNavigation_ : List Effect :=
  [.log "DEBUG: Navigation finished, scheduling focus timer",
   .scheduleTimer (1 / 10) false "_focusPromptTimerFired:"]

/-- Lines 595-598, `_focusPromptTimerFired_`: debug print, then the
same focus request again. -/
def _focusPromptTimerFired_ : List Effect :=
  .log "DEBUG: Focus timer fired after navigation" :: _focus_prompt_area

/-- Lines 626-631, `monitorEventTap_`: the event tap is `none` when it
was never created (or the attribute is absent) and `some enabled`
otherwise; a disabled tap is re-enabled via `CGEventTapEnable`. -/
def monitorEventTap_ : Option Bool → Option Bool × List Effect
  | none => (none, [])
  | some enabled =>
      if !enabled then
        (some true, [.log "Event tap was disabled, re-enabling...", .enableEventTap])
      else (some enabled, [])

/-- Lines 377-399 of `applicationDidFinishLaunching_`: after
`CGEventTapCreate`, a non-null tap is added to the main run loop as a
source, enabled, and watched by a repeating 1 second timer targeting
`monitorEventTap:`; a null tap only logs the failure. -/
def launchTapPhase (tapCreated : Bool) : List Effect :=
  if tapCreated then
    [.addRunLoopSource, .enableEventTap,
     .scheduleTimer 1 true "monitorEventTap:",
     .log "Event tap successfully integrated into main run loop"]
  else
    [.log "Failed to create event tap. Check Accessibility permissions."]

/-- Lines 377-401: the tap phase followed unconditionally by
`self.showWindow_(None)` (line 401). -/
def launchTail (tapCreated : Bool) : List Effect :=
  launchTapPhase tapCreated ++ showWindow_

/-- Lines 336-363: the selectors of the status-bar menu items, in menu
order. -/
def statusMenuActions : List String :=
  ["showWindow:", "hideWindow:", "goToWebsite:", "clearWebViewData:",
   "setTrigger:", "install:", "uninstall:", "terminate:"]

/-- Discriminates timer registrations in a trace. -/
def isTimerEffect : Effect → Bool
  | .scheduleTimer _ _ _ => true
  | _ => false

/-- Discriminates run-loop-source installation in a trace. -/
def isRunLoopSourceEffect : Effect → Bool
  | .addRunLoopSource => true
  | _ => false

/-- Discriminates calls into the startup manager in a trace. -/
def isStartupCallEffect : Effect → Bool
  | .callInstallStartup _ => true
  | .callUninstallStartup _ => true
  | _ => false

/-- Lines 430-437, `install_`: one call to `install_startup` (its
success is the argument); on success print and `NSApp.terminate_`, on
failure only print. -/
def install_ (ok : Bool) : List Effect :=
  .callInstallStartup ok ::
    (if ok then [.log "Installation successful, exiting.", .terminateApp]
     else [.log "Installation unsuccessful."])

/-- Modelled from the spec: `launcher.uninstall_startup` is not under
`src/` (only `app.py` is); per spec §4.5 it deregisters the login item
and returns success or failure, and per spec §7 an uninstall failure is
logged (no retry).  The failure log is therefore placed inside this
modelled callee, since line 440-442 of `app.py` has no else branch. -/
def uninstall_startup (ok : Bool) : List Effect :=
  .callUninstallStartup ok :: (if ok then [] else [.log "Uninstall failed."])

/-- Lines 439-442, `uninstall_`: one call to `uninstall_startup`; on
success `NSApp.hide_(None)`, on failure nothing further. -/
def uninstall_ (ok : Bool) : List Effect :=
  uninstall_startup ok ++ (if ok then [.hideApp] else [])

/-- The modifier flags read at lines 450-454 of `keyDown_`. -/
structure Modifiers where
  command : Bool
  alt : Bool
  shift : Bool
  control : Bool
deriving DecidableEq

/-- Lines 448-529, `AppDelegate.keyDown_`: the chain of branches under
the guard `(key_command or key_control) and (not key_alt)`, with `key`
the characters ignoring modifiers.  Each branch is the recorded calls
of its body. -/
def keyDown_ (m : Modifiers) (key : String) : List Effect :=
  if (m.command || m.control) && !m.alt then
    if key == "a" then [.selectAll]
    else if key == "c" then [.copyText]
    else if key == "x" then [.cutText]
    else if key == "v" then [.pasteText]
    else if key == "h" then hideWindow_
    else if key == "n" then [.evalJS .newChat]
    else if key == "s" && m.control && m.command then [.evalJS .toggleSidebar]
    else if key == "q" then [.terminateApp]
    else if key == "," && m.command && !m.control && !m.alt then
      [.evalJS .savedSettings]
    else []
  else []

/-- Lines 40-44, `AppWindow.keyDown_`: forward to the delegate when one
is set (it is set at line 376 before the run loop starts). -/
def windowKeyDown (hasDelegate : Bool) (m : Modifiers) (key : String) : List Effect :=
  if hasDelegate then keyDown_ m key else []

/-- The views `hitTest_` can return inside the content view. -/
inductive View where
  | dragArea : View
  | webview : View
  | closeButton : View
  | other : View
deriving DecidableEq

/-- A left-mouse-down event as seen by the local monitor: its identity,
whether `event.window()` is the overlay window, and its location in
window coordinates. -/
structure MouseEvent where
  eventId : ℕ
  windowIsOverlay : Bool
  location : ℚ × ℚ
deriving DecidableEq

/-- Lines 531-546, `handleLocalMouseEvent`: for an event on the overlay
window whose hit view is the drag area, call `showWindow_(None)`, start
the window drag with the same event, and return `None` (consume it);
every other event is returned unchanged.  `hitTest` is the
OS-provided `NSView.hitTest_`. -/
def handleLocalMouseEvent (hitTest : ℚ × ℚ → View) (e : MouseEvent) :
    List Effect × Option MouseEvent :=
  if e.windowIsOverlay then
    if hitTest e.location = View.dragArea then
      (showWindow_ ++ [.performWindowDragWith e.eventId], none)
    else ([], some e)
  else ([], some e)

/-- Lines 58-60, `DragArea.mouseDown_`: start the window drag with the
received event. -/
def mouseDown_ (e : MouseEvent) : List Effect :=
  [.performWindowDragWith e.eventId]

/-- Lines 104-119 of `applicationDidFinishLaunching_`: from the content
bounds `(W, H)` and the drag-area height, the drag area is placed at
`(0, H - dragAreaHeight)` with size `(W, dragAreaHeight)` and the
webview at `(0, 0)` with size `(W, H - dragAreaHeight)`.  The constant
`DRAG_AREA_HEIGHT` lives in `constants.py`, which is not under `src/`;
its value is irrelevant, so the height is a parameter. -/
def setupLayout (W H dragAreaHeight : ℚ) : Rect × Rect :=
  (⟨0, H - dragAreaHeight, W, dragAreaHeight⟩,
   ⟨0, 0, W, H - dragAreaHeight⟩)

/-- Lines 548-553, `windowDidResize_`: recompute both frames from the
current content bounds with the same formulas. -/
def windowDidResize_ (W H dragAreaHeight : ℚ) : Rect × Rect :=
  (⟨0, H - dragAreaHeight, W, dragAreaHeight⟩,
   ⟨0, 0, W, H - dragAreaHeight⟩)

/-- The content layout invariant: the drag area is a strip of the given
height spanning the full width and touching the top edge of the content
bounds, and the webview fills exactly the remaining lower region (full
width, from the bottom up to the drag area). -/
def layoutInvariant (W H dragAreaHeight : ℚ) (da wv : Rect) : Prop :=
  da.x = 0 ∧ da.w = W ∧ da.h = dragAreaHeight ∧ da.y + da.h = H ∧
  wv.x = 0 ∧ wv.y = 0 ∧ wv.w = W ∧ wv.y + wv.h = da.y

/-- The state right after window creation (lines 70-82): the window
exists at the initial content rect, nothing shown yet, default trigger,
no drag-area color received. -/
def initialState : AppState :=
  { windowExists := true, frame := ⟨500, 200, 970, 750⟩, trigger := 0,
    windowVisible := false, windowIsKey := false, windowIsFront := false,
    appActive := false, appHidden := false, terminated := false,
    loginItemRegistered := false, dragColor := none }

/-! ### Supporting lemmas on the string helpers -/

theorem startsWith_self_append (p rest : List Char) :
    startsWith p (p ++ rest) = true := by
  induction p with
  | nil => rfl
  | cons a ps ih => simp [startsWith, ih]

theorem containsChar_append (c : Char) (l₁ l₂ : List Char) :
    containsChar c (l₁ ++ c :: l₂) = true := by
  induction l₁ with
  | nil => simp [containsChar]
  | cons a rest ih => simp [containsChar, ih]

theorem pyIndex_append (c : Char) (l₁ l₂ : List Char)
    (h : ∀ a ∈ l₁, a ≠ c) :
    pyIndex c (l₁ ++ c :: l₂) = l₁.length := by
  induction l₁ with
  | nil => simp [pyIndex]
  | cons a rest ih =>
      have ha : a ≠ c := h a (List.mem_cons_self a rest)
      simp only [List.cons_append, pyIndex, beq_iff_eq, if_neg ha, List.length_cons,
        List.append_eq]
      rw [ih (fun x hx => h x (List.mem_cons_of_mem a hx))]

theorem take_len_append (l₁ l₂ : List Char) (n : ℕ) (h : n = l₁.length) :
    (l₁ ++ l₂).take n = l₁ := by
  subst h
  induction l₁ with
  | nil => simp
  | cons a rest ih => simp [ih]

theorem drop_len_append (l₁ l₂ : List Char) (n : ℕ) (h : n = l₁.length) :
    (l₁ ++ l₂).drop n = l₂ := by
  subst h
  induction l₁ with
  | nil => simp
  | cons a rest ih => simp [ih]

theorem splitAux_word (w : List Char) (hw : ∀ a ∈ w, a ≠ ',')
    (acc rest : List Char) :
    splitAux acc (w ++ rest) = splitAux (w.reverse ++ acc) rest := by
  induction w generalizing acc with
  | nil => simp
  | cons a ws ih =>
      have ha : a ≠ ',' := hw a (List.mem_cons_self a ws)
      simp only [List.cons_append, splitAux, beq_iff_eq, if_neg ha, List.append_eq]
      rw [ih (fun x hx => hw x (List.mem_cons_of_mem a hx)) (a :: acc)]
      simp

theorem splitAux_comma (acc rest : List Char) :
    splitAux acc (',' :: rest) = acc.reverse :: splitAux [] rest := by
  simp [splitAux]

theorem splitOnComma_joinComma (comps : List (List Char))
    (hne : comps ≠ [])
    (hclean : ∀ c ∈ comps, ∀ a ∈ c, a ≠ ',') :
    splitOnComma (joinComma comps) = comps := by
  induction comps with
  | nil => exact absurd rfl hne
  | cons c rest ih =>
      cases rest with
      | nil =>
          show splitAux [] (joinComma [c]) = [c]
          have : joinComma [c] = c ++ [] := by simp [joinComma]
          rw [this, splitAux_word c (hclean c (List.mem_cons_self c [])) [] []]
          simp [splitAux]
      | cons d ds =>
          show splitAux [] (joinComma (c :: d :: ds)) = c :: d :: ds
          have hjoin : joinComma (c :: d :: ds) = c ++ ',' :: joinComma (d :: ds) := by
            simp [joinComma]
          rw [hjoin,
            splitAux_word c (hclean c (List.mem_cons_self c (d :: ds))) [] _,
            List.append_nil, splitAux_comma, List.reverse_reverse]
          have ihr := ih (by simp)
            (fun x hx => hclean x (List.mem_cons_of_mem c hx))
          exact congrArg (c :: ·) ihr

theorem mem_joinComma {a : Char} {comps : List (List Char)}
    (h : a ∈ joinComma comps) : a = ',' ∨ ∃ c ∈ comps, a ∈ c := by
  induction comps with
  | nil => simp [joinComma] at h
  | cons c rest ih =>
      cases rest with
      | nil =>
          simp only [joinComma] at h
          exact Or.inr ⟨c, List.mem_cons_self c [], h⟩
      | cons d ds =>
          have hjoin : joinComma (c :: d :: ds) = c ++ ',' :: joinComma (d :: ds) := by
            simp [joinComma]
          rw [hjoin] at h
          rcases List.mem_append.mp h with hc | hcd
          · exact Or.inr ⟨c, List.mem_cons_self c (d :: ds), hc⟩
          · rcases List.mem_cons.mp hcd with hcomma | hrest
            · exact Or.inl hcomma
            · rcases ih hrest with hcomma | ⟨e, he, hae⟩
              · exact Or.inl hcomma
              · exact Or.inr ⟨e, List.mem_cons_of_mem c he, hae⟩

theorem parseFloats_of_map (comps : List (List Char)) (qs : List ℚ)
    (h : comps.map pyFloat? = qs.map some) :
    parseFloats comps = some qs := by
  induction comps generalizing qs with
  | nil =>
      cases qs with
      | nil => rfl
      | cons q qs' => simp at h
  | cons c rest ih =>
      cases qs with
      | nil => simp at h
      | cons q qs' =>
          simp only [List.map_cons, List.cons.injEq] at h
          simp only [parseFloats, h.1, ih qs' h.2, Option.map_some']

/-- The parsing pipeline of lines 560-562 recovers the components of a
well-formed `rgb(...)` string: for comma- and parenthesis-free
components, the slice between the parentheses splits back into exactly
those components. -/
theorem parenContents_rgbString (comps : List (List Char))
    (hclean : ∀ c ∈ comps, ∀ a ∈ c, a ≠ '(' ∧ a ≠ ')' ∧ a ≠ ',') :
    parenContents (rgbString comps) = joinComma comps := by
  have hnotl : ∀ a ∈ joinComma comps, a ≠ ')' := by
    intro a ha
    rcases mem_joinComma ha with hcomma | ⟨c, hc, hac⟩
    · subst hcomma; decide
    · exact (hclean c hc a hac).2.1
  have hidx1 : pyIndex '(' (rgbString comps) = 3 := by
    have := pyIndex_append '(' ['r', 'g', 'b']
      (joinComma comps ++ [')']) (by decide)
    simpa [rgbString] using this
  have hidx2 : pyIndex ')' (rgbString comps) = 4 + (joinComma comps).length := by
    have hpre : ∀ a ∈ 'r' :: 'g' :: 'b' :: '(' :: joinComma comps, a ≠ ')' := by
      intro a ha
      rcases List.mem_cons.mp ha with h | ha; · subst h; decide
      rcases List.mem_cons.mp ha with h | ha; · subst h; decide
      rcases List.mem_cons.mp ha with h | ha; · subst h; decide
      rcases List.mem_cons.mp ha with h | ha; · subst h; decide
      exact hnotl a ha
    have := pyIndex_append ')' ('r' :: 'g' :: 'b' :: '(' :: joinComma comps) [] hpre
    have heq : rgbString comps
        = ('r' :: 'g' :: 'b' :: '(' :: joinComma comps) ++ ')' :: [] := by
      simp [rgbString]
    rw [heq, this]
    simp only [List.length_cons]
    omega
  unfold parenContents pySlice
  rw [hidx1, hidx2]
  have heq : rgbString comps
      = ('r' :: 'g' :: 'b' :: '(' :: joinComma comps) ++ [')'] := by
    simp [rgbString]
  rw [heq, take_len_append _ _ _ (by simp only [List.length_cons]; omega)]
  rfl

theorem rgbGuard_rgbString (comps : List (List Char)) :
    rgbGuard (rgbString comps) = true := by
  unfold rgbGuard
  have h1 : startsWith ['r', 'g', 'b'] (rgbString comps) = true := by
    have := startsWith_self_append ['r', 'g', 'b']
      ('(' :: (joinComma comps ++ [')']))
    simpa [rgbString] using this
  have h2 : containsChar '(' (rgbString comps) = true := by
    have := containsChar_append '(' ['r', 'g', 'b'] (joinComma comps ++ [')'])
    simpa [rgbString] using this
  have h3 : containsChar ')' (rgbString comps) = true := by
    have := containsChar_append ')' ('r' :: 'g' :: 'b' :: '(' :: joinComma comps) []
    have heq : rgbString comps
        = ('r' :: 'g' :: 'b' :: '(' :: joinComma comps) ++ ')' :: [] := by
      simp [rgbString]
    rw [heq]
    exact this
  rw [h1, h2, h3]
  rfl

/-! ### Claim theorems -/

/-- C1: every inbound `backgroundColorHandler` message whose body is a
string of the form `rgb(r, g, b)` or `rgb(r, g, b, a)` with numeric
components `r`, `g`, `b` in `[0, 255]` makes the handler set the
drag-region background color with first three components `r/255`,
`g/255`, `b/255`, any fourth (alpha) component ignored, and the color
applied fully opaque. -/
theorem c1_backgroundColor_valid_rgb_normalized_opaque
    (comps : List (List Char)) (qs : List ℚ) (r g b : ℚ) (st : AppState)
    (hnum : comps.map pyFloat? = qs.map some)
    (hlen : comps.length = 3 ∨ comps.length = 4)
    (hrgb : qs.take 3 = [r, g, b])
    (hclean : ∀ c ∈ comps, ∀ a ∈ c, a ≠ '(' ∧ a ≠ ')' ∧ a ≠ ',')
    (hr : 0 ≤ r ∧ r ≤ 255) (hg : 0 ≤ g ∧ g ≤ 255) (hb : 0 ≤ b ∧ b ≤ 255) :
    userContentController_didReceiveScriptMessage_ "backgroundColorHandler"
        (rgbString comps)
      = (.setColor (r / 255) (g / 255) (b / 255) 1, [])
    ∧ applyHandlerResult (.setColor (r / 255) (g / 255) (b / 255) 1) st
      = { st with dragColor := some (r / 255, g / 255, b / 255, 1) } := by
  have hne : comps ≠ [] := by
    rcases hlen with h | h <;> (intro hc; subst hc; simp at h)
  have hsplit := splitOnComma_joinComma comps hne
    (fun c hc a ha => (hclean c hc a ha).2.2)
  have hparen := parenContents_rgbString comps hclean
  have hguard := rgbGuard_rgbString comps
  have hparse := parseFloats_of_map comps qs hnum
  have hmain : handleBackgroundColor (rgbString comps)
      = .setColor (r / 255) (g / 255) (b / 255) 1 := by
    unfold handleBackgroundColor
    rw [hguard, hparen, hsplit, hparse]
    simp only [if_true]
    rw [hrgb]
  have hdispatch : userContentController_didReceiveScriptMessage_
      "backgroundColorHandler" (rgbString comps)
      = (handleBackgroundColor (rgbString comps), []) := by
    unfold userContentController_didReceiveScriptMessage_
    rw [if_pos rfl]
  exact ⟨by rw [hdispatch, hmain], rfl⟩

/-- Witness for C1 at the concrete message body
`rgb(10, 20, 30, 0.5)`: the alpha component is ignored and the color is
set to `(10/255, 20/255, 30/255)`, fully opaque. -/
theorem c1_witness :
    userContentController_didReceiveScriptMessage_ "backgroundColorHandler"
        (rgbString [['1', '0'], [' ', '2', '0'], [' ', '3', '0'], [' ', '0', '.', '5']])
      = (.setColor (10 / 255) (20 / 255) (30 / 255) 1, [])
    ∧ applyHandlerResult (.setColor (10 / 255) (20 / 255) (30 / 255) 1) initialState
      = { initialState with dragColor := some (10 / 255, 20 / 255, 30 / 255, 1) } :=
  c1_backgroundColor_valid_rgb_normalized_opaque
    [['1', '0'], [' ', '2', '0'], [' ', '3', '0'], [' ', '0', '.', '5']]
    [10, 20, 30, (0 : ℚ) + (5 : ℚ) / 10 ^ 1] 10 20 30 initialState
    rfl (Or.inr rfl) rfl (by decide)
    (by norm_num) (by norm_num) (by norm_num)

/-- C2: every inbound `backgroundColorHandler` message whose body fails
the `rgb(...)` shape test (wrong prefix or missing parenthesis) leaves
the drag-region color unchanged, changes no other state, and surfaces
no error. -/
theorem c2_backgroundColor_malformed_silently_ignored
    (body : List Char) (st : AppState)
    (h : rgbGuard body = false) :
    userContentController_didReceiveScriptMessage_ "backgroundColorHandler" body
      = (.noChange, [])
    ∧ applyHandlerResult .noChange st = st := by
  constructor
  · unfold userContentController_didReceiveScriptMessage_
    rw [if_pos rfl]
    unfold handleBackgroundColor
    rw [h]
    rfl
  · rfl

/-- Witness for C2 at the concrete malformed body `#ffffff`. -/
theorem c2_witness :
    userContentController_didReceiveScriptMessage_ "backgroundColorHandler"
        "#ffffff".toList
      = (.noChange, [])
    ∧ applyHandlerResult .noChange initialState = initialState :=
  c2_backgroundColor_malformed_silently_ignored "#ffffff".toList initialState rfl

/-- C3: a repeating 1-second timer targets the event-tap liveness
check; at every tick the check maps an existing tap to an enabled tap
(a disabled tap is re-enabled, logging the recovery), a tap that is
already enabled is left untouched with no effects, and a missing tap is
left alone. -/
theorem c3_eventTap_liveness_monitor :
    Effect.scheduleTimer 1 true "monitorEventTap:" ∈ launchTapPhase true
    ∧ (∀ t : Option Bool, (monitorEventTap_ t).1 = t.map (fun _ => true))
    ∧ monitorEventTap_ (some false)
        = (some true, [.log "Event tap was disabled, re-enabling...", .enableEventTap])
    ∧ monitorEventTap_ (some true) = (some true, [])
    ∧ monitorEventTap_ none = (none, []) := by
  refine ⟨?_, ?_, rfl, rfl, rfl⟩
  · exact List.mem_cons_of_mem _ (List.mem_cons_of_mem _ (List.mem_cons_self _ _))
  · intro t
    cases t with
    | none => rfl
    | some e => cases e <;> rfl

/-- C4: the install action terminates the process exactly when the
startup registration succeeds, logs the failure and changes no state
otherwise; the uninstall action hides the app (never terminating) on
success, logs the failure and changes no state otherwise; each action
calls into the startup manager exactly once (no retry). -/
theorem c4_install_uninstall_semantics :
    (∀ s, applyEffects (install_ true) s
        = { s with loginItemRegistered := true, terminated := true })
    ∧ (∀ s, applyEffects (install_ false) s = s)
    ∧ Effect.log "Installation unsuccessful." ∈ install_ false
    ∧ (∀ s, applyEffects (uninstall_ true) s
        = { s with loginItemRegistered := false, appHidden := true, appActive := false,
                   windowIsKey := false, windowIsFront := false, windowVisible := false })
    ∧ (∀ s, (applyEffects (uninstall_ true) s).terminated = s.terminated)
    ∧ (∀ s, applyEffects (uninstall_ false) s = s)
    ∧ Effect.log "Uninstall failed." ∈ uninstall_ false
    ∧ (∀ ok, (install_ ok).countP isStartupCallEffect = 1
        ∧ (uninstall_ ok).countP isStartupCallEffect = 1) := by
  refine ⟨fun s => rfl, fun s => rfl, ?_, fun s => rfl, fun s => rfl, fun s => rfl, ?_, ?_⟩
  · exact List.mem_cons_of_mem _ (List.mem_cons_self _ _)
  · exact List.mem_cons_of_mem _ (List.mem_cons_self _ _)
  · intro ok
    cases ok <;> exact ⟨rfl, rfl⟩

/-- C5: when `CGEventTapCreate` returns no tap, the launch sequence only
logs the failure — no run-loop source and no monitor timer are
installed — and then still shows the window (making it key and front
and focusing the prompt), while the status-bar menu keeps its show and
hide actions. -/
theorem c5_tap_creation_failure_graceful :
    launchTapPhase false
      = [.log "Failed to create event tap. Check Accessibility permissions."]
    ∧ launchTail false
      = .log "Failed to create event tap. Check Accessibility permissions."
          :: showWindow_
    ∧ (launchTail false).countP isTimerEffect = 0
    ∧ (launchTail false).countP isRunLoopSourceEffect = 0
    ∧ Effect.makeKeyAndOrderFront ∈ launchTail false
    ∧ Effect.activateApp ∈ launchTail false
    ∧ Effect.evalJS Script.focusPrompt ∈ launchTail false
    ∧ "showWindow:" ∈ statusMenuActions
    ∧ "hideWindow:" ∈ statusMenuActions := by
  refine ⟨rfl, rfl, rfl, rfl, ?_, ?_, ?_, ?_, ?_⟩
  · exact List.mem_cons_of_mem _ (List.mem_cons_of_mem _ (List.mem_cons_self _ _))
  · exact List.mem_cons_of_mem _ (List.mem_cons_of_mem _
      (List.mem_cons_of_mem _ (List.mem_cons_self _ _)))
  · exact List.mem_cons_of_mem _ (List.mem_cons_of_mem _ (List.mem_cons_of_mem _
      (List.mem_cons_of_mem _ (List.mem_cons_of_mem _ (List.mem_cons_self _ _)))))
  · exact List.mem_cons_self _ _
  · exact List.mem_cons_of_mem _ (List.mem_cons_self _ _)

/-- C6: every `showWindow_` invocation leaves the window frontmost and
key, and its trace orders the window to the front and issues the
focus-prompt script request; after every finished navigation a
non-repeating 0.1-second timer is scheduled whose handler issues the
same focus-prompt request again. -/
theorem c6_show_focus_and_navigation_retry :
    (∀ s, (applyEffects showWindow_ s).windowIsFront = true
        ∧ (applyEffects showWindow_ s).windowIsKey = true)
    ∧ Effect.makeKeyAndOrderFront ∈ showWindow_
    ∧ Effect.activateApp ∈ showWindow_
    ∧ Effect.evalJS Script.focusPrompt ∈ showWindow_
    ∧ Effect.scheduleTimer (1 / 10) false "_focusPromptTimerFired:"
        ∈ webView_didFinishNavigation_
    ∧ (webView_didFinishNavigation_).countP isTimerEffect = 1
    ∧ Effect.evalJS Script.focusPrompt ∈ _focusPromptTimerFired_ := by
  refine ⟨fun s => ⟨rfl, rfl⟩, ?_, ?_, ?_, ?_, rfl, ?_⟩
  · exact List.mem_cons_of_mem _ (List.mem_cons_self _ _)
  · exact List.mem_cons_of_mem _ (List.mem_cons_of_mem _ (List.mem_cons_self _ _))
  · exact List.mem_cons_of_mem _ (List.mem_cons_of_mem _
      (List.mem_cons_of_mem _ (List.mem_cons_of_mem _ (List.mem_cons_self _ _))))
  · exact List.mem_cons_of_mem _ (List.mem_cons_self _ _)
  · exact List.mem_cons_of_mem _ (List.mem_cons_of_mem _ (List.mem_cons_self _ _))

/-- C7: a primary-button mouse-down on the overlay window whose hit
view is the drag area produces exactly the show-window calls (bringing
the window key and front) followed by the window drag started with the
same event, and consumes the event; any event off the overlay window or
hitting another view is passed through unmodified with no effects. -/
theorem c7_drag_region_click_focuses_then_drags
    (hitTest : ℚ × ℚ → View) (e : MouseEvent)
    (hw : e.windowIsOverlay = true) (hh : hitTest e.location = View.dragArea) :
    handleLocalMouseEvent hitTest e
      = (showWindow_ ++ [.performWindowDragWith e.eventId], none)
    ∧ (∀ s, (applyEffects (showWindow_ ++ [.performWindowDragWith e.eventId]) s).windowIsKey
          = true
        ∧ (applyEffects (showWindow_ ++ [.performWindowDragWith e.eventId]) s).windowIsFront
          = true)
    ∧ (∀ (ht2 : ℚ × ℚ → View) (e2 : MouseEvent), e2.windowIsOverlay = false →
        handleLocalMouseEvent ht2 e2 = ([], some e2))
    ∧ (∀ (ht2 : ℚ × ℚ → View) (e2 : MouseEvent), ht2 e2.location ≠ View.dragArea →
        handleLocalMouseEvent ht2 e2 = ([], some e2)) := by
  refine ⟨?_, fun s => ⟨rfl, rfl⟩, ?_, ?_⟩
  · simp [handleLocalMouseEvent, hw, hh]
  · intro ht2 e2 h2
    simp [handleLocalMouseEvent, h2]
  · intro ht2 e2 h2
    by_cases hov : e2.windowIsOverlay = true
    · simp [handleLocalMouseEvent, hov, h2]
    · simp only [Bool.not_eq_true] at hov
      simp [handleLocalMouseEvent, hov]

/-- Witness for C7: a concrete event on the overlay window whose hit
view is the drag area is consumed after focusing and dragging. -/
theorem c7_witness :
    handleLocalMouseEvent (fun _ => View.dragArea) ⟨0, true, (0, 0)⟩
      = (showWindow_ ++ [.performWindowDragWith 0], none) :=
  (c7_drag_region_click_focuses_then_drags (fun _ => View.dragArea)
    ⟨0, true, (0, 0)⟩ rfl rfl).1

/-- C8: hiding runs only `NSApp.hide_`, which changes exactly the
hidden, active, key, front and visible flags — the window object, its
saved frame, the trigger configuration, the drag color and the
registration are untouched — so a show followed by a hide leaves the
window hidden with frame and trigger as they were. -/
theorem c8_hide_never_destroys_window :
    (∀ s, applyEffects hideWindow_ s
        = { s with appHidden := true, appActive := false, windowIsKey := false,
                   windowIsFront := false, windowVisible := false })
    ∧ (∀ s, (applyEffects hideWindow_ (applyEffects showWindow_ s)).windowExists
          = s.windowExists
        ∧ (applyEffects hideWindow_ (applyEffects showWindow_ s)).frame = s.frame
        ∧ (applyEffects hideWindow_ (applyEffects showWindow_ s)).trigger = s.trigger
        ∧ (applyEffects hideWindow_ (applyEffects showWindow_ s)).dragColor = s.dragColor
        ∧ (applyEffects hideWindow_ (applyEffects showWindow_ s)).windowVisible = false
        ∧ (applyEffects hideWindow_ (applyEffects showWindow_ s)).appHidden = true) :=
  ⟨fun s => rfl, fun s => ⟨rfl, rfl, rfl, rfl, rfl, rfl⟩⟩

/-- C9: with the overlay window key, a key-down whose modifiers include
Command or Control but not Option dispatches the select-all, copy, cut
and paste editing actions for `a`, `c`, `x`, `v`, hides the window for
`h`, terminates for `q`, injects the new-chat script for `n`; `,` with
Command alone (no Control, no Option) injects the saved-settings
script; and any key-down whose modifiers include Option produces no
action at all. -/
theorem c9_command_key_dispatch (m : Modifiers)
    (hmod : (m.command || m.control) = true) (halt : m.alt = false) :
    keyDown_ m "a" = [.selectAll]
    ∧ keyDown_ m "c" = [.copyText]
    ∧ keyDown_ m "x" = [.cutText]
    ∧ keyDown_ m "v" = [.pasteText]
    ∧ keyDown_ m "h" = [.hideApp]
    ∧ keyDown_ m "q" = [.terminateApp]
    ∧ keyDown_ m "n" = [.evalJS .newChat]
    ∧ (∀ m2 : Modifiers, m2.command = true → m2.control = false → m2.alt = false →
        keyDown_ m2 "," = [.evalJS .savedSettings])
    ∧ (∀ (m3 : Modifiers) (k : String), m3.alt = true → keyDown_ m3 k = [])
    ∧ (∀ (m4 : Modifiers) (k : String), windowKeyDown true m4 k = keyDown_ m4 k) := by
  obtain ⟨mc, ma, ms, mctl⟩ := m
  simp only at hmod halt
  subst halt
  refine ⟨?_, ?_, ?_, ?_, ?_, ?_, ?_, ?_, ?_, fun m4 k => rfl⟩
  case refine_8 =>
    intro m2 h1 h2 h3
    obtain ⟨c2, a2, s2, t2⟩ := m2
    simp only at h1 h2 h3
    subst h1; subst h2; subst h3
    simp [keyDown_]
  case refine_9 =>
    intro m3 k h3
    obtain ⟨c3, a3, s3, t3⟩ := m3
    simp only at h3
    subst h3
    simp [keyDown_]
  all_goals simp [keyDown_, hmod, hideWindow_]

/-- Witness for C9: Command+`a` (no Option) selects all. -/
theorem c9_witness :
    keyDown_ ⟨true, false, false, false⟩ "a" = [.selectAll] :=
  (c9_command_key_dispatch ⟨true, false, false, false⟩ rfl rfl).1

/-- C10: the layout invariant — drag area exactly the top strip of the
content bounds (full width, given height) and webview exactly the
remaining lower region — holds for the frames computed at setup and for
the frames recomputed by the resize handler, for every content size. -/
theorem c10_layout_invariant_setup_and_resize (W H dh : ℚ) :
    layoutInvariant W H dh (setupLayout W H dh).1 (setupLayout W H dh).2
    ∧ layoutInvariant W H dh (windowDidResize_ W H dh).1 (windowDidResize_ W H dh).2 := by
  refine ⟨⟨rfl, rfl, rfl, ?_, rfl, rfl, rfl, ?_⟩,
    ⟨rfl, rfl, rfl, ?_, rfl, rfl, rfl, ?_⟩⟩
  · show H - dh + dh = H
    ring
  · show 0 + (H - dh) = H - dh
    ring
  · show H - dh + dh = H
    ring
  · show 0 + (H - dh) = H - dh
    ring

end GeminiOverlay
